import Mathlib

/-!
Verification development for the vector database tool
(src/tools/vector_db_tool.py): a shallow embedding of the VectorDB class.

Modelling conventions:
* Embedding vectors are lists of rationals; exact rational arithmetic stands
  in for IEEE-754 float32 arithmetic.  The one float phenomenon the source
  relies on, NaN from an unguarded 0/0 division, is modelled explicitly by
  an Option: `none` is the NaN similarity value.
* The text encoder (SentenceTransformer.encode) is an external collaborator;
  every operation takes it as a function parameter `encode : String → List ℚ`,
  which also makes it deterministic, matching the spec assumption.
* The two SQLite tables are lists kept in rowid order, with the rowid
  counters (`INTEGER PRIMARY KEY` assignment) made explicit.  The round trip
  through `embedding.tobytes()` / `np.frombuffer(..., dtype=np.float32)` is
  the identity on float32 vectors and is modelled as the identity.
* Metadata (`Dict[str, Any]`) is modelled as an association list of simple
  JSON values; the `json.dumps` / `json.loads` round trip, which is the
  identity on serializable mappings, is modelled by storing the mapping
  itself (wrapped in the same truthiness test the source applies).
* `np.argsort` with its default quicksort is documented as not stable, so
  the source fixes no order within blocks of equal similarities.  The model
  resolves ties by ascending index (see `keyLe`), which is exact for the
  small arrays numpy handles entirely in its insertion-sort path; universal
  theorems stated against the model draw only conclusions that are
  invariant under the order within tied blocks, and tie-order-specific
  facts are stated only at concrete small inputs.
-/

/-- Serializable metadata values (the JSON fragment `json.dumps` accepts). -/
inductive JVal where
  | jnull : JVal
  | jbool : Bool → JVal
  | jint : Int → JVal
  | jstr : String → JVal
deriving DecidableEq

/-- A metadata mapping, `Dict[str, Any]` in the source. -/
abbrev Md := List (String × JVal)

/-- Row of the `collections` table: `id INTEGER PRIMARY KEY, name TEXT UNIQUE`. -/
structure Collection where
  id : Nat
  name : String
deriving DecidableEq

/-- Row of the `documents` table:
`id INTEGER PRIMARY KEY, collection_id, text, metadata, embedding BLOB`. -/
structure DocumentRow where
  id : Nat
  collection_id : Nat
  text : String
  metadata : Option Md
  embedding : List ℚ
deriving DecidableEq

/-- The persisted store (one SQLite file).  `nextCollectionId` / `nextDocId`
model the rowids SQLite assigns to the next inserted row of each table
(the tool never deletes rows, so they behave as counters starting at 1). -/
structure DB where
  collections : List Collection
  documents : List DocumentRow
  nextCollectionId : Nat
  nextDocId : Nat
deriving DecidableEq

/-- A freshly initialised database (`_init_db` creates empty tables). -/
def emptyDB : DB := ⟨[], [], 1, 1⟩

/-- `np.dot` of two vectors (source line 195). -/
def dotQ : List ℚ → List ℚ → ℚ
  | x :: xs, y :: ys => x * y + dotQ xs ys
  | _, _ => 0

/-- Squared euclidean norm: `np.linalg.norm v` is `Real.sqrt (normSq v)`. -/
def normSq (v : List ℚ) : ℚ := dotQ v v

/-- A cosine-similarity score, kept in exact form: the float the source
computes at lines 195-197 is `num / Real.sqrt denSq`, since
`np.linalg.norm q * np.linalg.norm v = Real.sqrt (normSq q * normSq v)`. -/
structure Score where
  num : ℚ
  denSq : ℚ
deriving DecidableEq

/-- The similarity computation of source lines 195-197:
`np.dot(q, v) / (np.linalg.norm(q) * np.linalg.norm(v))`.
The division is NOT guarded in the source; when the denominator is zero the
numerator is also zero (a vector of zero norm is the zero vector in exact
arithmetic), so numpy produces the float NaN, modelled here as `none`. -/
def simScore (q v : List ℚ) : Option Score :=
  if normSq q * normSq v = 0 then none
  else some ⟨dotQ q v, normSq q * normSq v⟩

namespace Score

/-- Boolean comparison of two scores as real numbers:
`le s t` decides `s.num / Real.sqrt s.denSq ≤ t.num / Real.sqrt t.denSq`
(meaningful when both `denSq` are positive, which `simScore` guarantees). -/
def le (s t : Score) : Bool :=
  if s.num ≤ 0 then
    (if 0 ≤ t.num then true else decide (t.num ^ 2 * s.denSq ≤ s.num ^ 2 * t.denSq))
  else
    (if t.num ≤ 0 then false else decide (s.num ^ 2 * t.denSq ≤ t.num ^ 2 * s.denSq))

end Score

/-- Comparison of similarity values as numpy sorts them: `none` (NaN) sorts
as greater than every real value, matching `np.argsort` placing NaN last in
ascending order. -/
def simLe : Option Score → Option Score → Bool
  | _, none => true
  | none, some _ => false
  | some s, some t => Score.le s t

/-- Strict version of `simLe`. -/
def simLt (x y : Option Score) : Bool := !simLe y x

/-- Equality of similarity values as real numbers (NaN equal to NaN only). -/
def simEqv (x y : Option Score) : Bool := simLe x y && simLe y x

/-- The ascending comparison used to model `np.argsort` on indices into the
similarity list: by value first, then by index.  The index tie-break is a
modelling choice fixing one concrete deterministic permutation of each tied
block: the default kind of `np.argsort` is quicksort (introsort), documented
as NOT stable, so the source guarantees no particular order of equal values.
The choice is exact for the arrays numpy sorts entirely with its
insertion-sort path (small partitions, up to about 16 elements); universal
theorems proved against this model only ever conclude properties that are
invariant under the order within tied blocks. -/
def keyLe (sims : List (Option Score)) (i j : Nat) : Bool :=
  simLt (sims.getD i none) (sims.getD j none) ||
    (simEqv (sims.getD i none) (sims.getD j none) && decide (i ≤ j))

/-- `np.argsort(sims)` (source line 208, before reversal): a permutation of
`0, ..., sims.length - 1` sorted ascending by similarity value.  Tied blocks
are ordered by ascending index as fixed in `keyLe` — one concrete resolution
of the tie order that the unstable default quicksort leaves unspecified. -/
def argsortAsc (sims : List (Option Score)) : List Nat :=
  List.insertionSort (fun i j => keyLe sims i j = true) (List.range sims.length)

/-- Python slice `l[:n]` for an `int` bound `n`: a nonnegative `n` keeps the
first `n` elements; a negative `n` keeps all but the last `-n` elements
(`l[:-k]` semantics), i.e. the first `len + n` elements, clamped at zero. -/
def pySliceTo (l : List α) (n : Int) : List α :=
  if 0 ≤ n then l.take n.toNat else l.take ((l.length : Int) + n).toNat

/-- One entry of the `results` array the query returns (source lines
199-204): id, text, parsed metadata, similarity.  A `none` similarity is
the NaN float. -/
structure ResultDoc where
  id : Nat
  text : String
  metadata : Option Md
  similarity : Option Score
deriving DecidableEq

/-- The JSON envelope `write` returns. -/
inductive WriteResult where
  | success : String → Nat → WriteResult
  | error : String → WriteResult
deriving DecidableEq

/-- The JSON envelope `query` returns. -/
inductive QueryResult where
  | success : List ResultDoc → QueryResult
  | error : String → QueryResult
deriving DecidableEq

/-- The `SELECT id FROM collections WHERE name = ?` + `fetchone` step
(source lines 96-97 and 171-172): the first row with the given name. -/
def lookupCollection (db : DB) (name : String) : Option Nat :=
  (db.collections.find? (fun r => r.name == name)).map (fun r => r.id)

/-- The `INSERT INTO collections (name) VALUES (?)` step (source line 103).
The schema declares `name TEXT UNIQUE`, so SQLite rejects a duplicate name
with an IntegrityError, modelled as the `Except.error` branch. -/
def insertCollection (db : DB) (name : String) : Except String (Nat × DB) :=
  if db.collections.any (fun r => r.name == name) then
    .error "UNIQUE constraint failed: collections.name"
  else
    .ok (db.nextCollectionId,
      { db with
        collections := db.collections ++ [⟨db.nextCollectionId, name⟩],
        nextCollectionId := db.nextCollectionId + 1 })

/-- `_get_or_create_collection` (source lines 89-113): look up by name,
insert when absent.  An error propagates as a raised exception. -/
def getOrCreateCollection (db : DB) (name : String) :
    Except String (Nat × DB) :=
  match lookupCollection db name with
  | some cid => .ok (cid, db)
  | none => insertCollection db name

/-- The truthiness test of source line 125:
`metadata_str = json.dumps(metadata) if metadata else None`.
`None` and the empty dict are falsy, so only a non-empty mapping is stored. -/
def storedMd : Option Md → Option Md
  | none => none
  | some m => if m.isEmpty then none else some m

/-- `VectorDB.write` (source lines 115-156).  `insertOk` models the outcome
of the durable `INSERT INTO documents` (source lines 134-140): `false` is an
I/O fault raised by that statement, which the `except` clause at line 150
converts into the error envelope.  Note the collection resolution at line
128 commits on its own connection before the document insert starts. -/
def write (encode : String → List ℚ) (db : DB) (collection text : String)
    (metadata : Option Md) (insertOk : Bool) : WriteResult × DB :=
  let embedding := encode text
  let metadata_str := storedMd metadata
  match getOrCreateCollection db collection with
  | .error e => (.error ("Error writing to database: " ++ e), db)
  | .ok (collection_id, db1) =>
    if insertOk then
      let doc_id := db1.nextDocId
      (.success
          ("Successfully wrote document " ++ toString doc_id ++
            " to collection " ++ collection) doc_id,
        { db1 with
          documents :=
            db1.documents ++
              [⟨doc_id, collection_id, text, metadata_str, embedding⟩],
          nextDocId := doc_id + 1 })
    else
      (.error "Error writing to database: document insert failed", db1)

/-- Builds one entry of the `documents` result array (source lines 199-204);
the similarity stored alongside the text is the one computed for that row. -/
def toResultDoc (qv : List ℚ) (d : DocumentRow) : ResultDoc :=
  ⟨d.id, d.text, d.metadata, simScore qv d.embedding⟩

/-- A placeholder row for list indexing (never reached: the argsort indices
are all in range). -/
def dummyRow : DocumentRow := ⟨0, 0, "", none, []⟩

/-- `VectorDB.query` (source lines 158-225): encode the query, resolve the
collection (error envelope when absent; the source message wraps the name in
single quotes, elided here), scan the rows of the collection in rowid order,
score each, then `np.argsort(similarities)[::-1][:n_results]` and build the
result list.  The store is read, never written, so it is returned unchanged. -/
def query (encode : String → List ℚ) (db : DB) (collection qtext : String)
    (n_results : Int) : QueryResult × DB :=
  let query_embedding := encode qtext
  match lookupCollection db collection with
  | none => (.error ("Collection " ++ collection ++ " not found"), db)
  | some collection_id =>
    let docs := db.documents.filter (fun d => d.collection_id == collection_id)
    let sims := docs.map (fun d => simScore query_embedding d.embedding)
    let sorted_indices := pySliceTo (argsortAsc sims).reverse n_results
    let top_results :=
      sorted_indices.map (fun i => toResultDoc query_embedding (docs.getD i dummyRow))
    (.success top_results, db)

/-! ## Basic facts about the embedded operations -/

/-- The squared norm of a vector is nonnegative. -/
theorem normSq_nonneg (v : List ℚ) : 0 ≤ normSq v := by
  unfold normSq
  induction v with
  | nil => simp [dotQ]
  | cons x xs ih =>
    simp only [dotQ]
    have : 0 ≤ x * x := mul_self_nonneg x
    unfold normSq at ih
    linarith

/-- When no collection row carries the name, the duplicate test of the
UNIQUE constraint comes back false. -/
theorem lookup_none_any_false {db : DB} {c : String}
    (h : lookupCollection db c = none) :
    db.collections.any (fun r => r.name == c) = false := by
  unfold lookupCollection at h
  rcases hf : db.collections.find? (fun r => r.name == c) with _ | r
  · simpa using List.find?_eq_none.mp hf
  · rw [hf] at h
    simp at h

/-- Resolution of an absent name inserts a fresh row with the next rowid. -/
theorem getOrCreate_fresh {db : DB} {c : String}
    (h : lookupCollection db c = none) :
    getOrCreateCollection db c =
      .ok (db.nextCollectionId,
        { db with
          collections := db.collections ++ [⟨db.nextCollectionId, c⟩],
          nextCollectionId := db.nextCollectionId + 1 }) := by
  unfold getOrCreateCollection
  rw [h]
  simp [insertCollection, lookup_none_any_false h]

/-- Resolution of a present name returns its id and leaves the store as is. -/
theorem getOrCreate_existing {db : DB} {c : String} {cid : Nat}
    (h : lookupCollection db c = some cid) :
    getOrCreateCollection db c = .ok (cid, db) := by
  unfold getOrCreateCollection
  rw [h]

/-- With the document insert succeeding, `write` always returns a success
envelope and appends exactly one row, whatever the inputs are. -/
theorem write_ok (encode : String → List ℚ) (db : DB) (c t : String)
    (md : Option Md) :
    ∃ cid db1,
      getOrCreateCollection db c = .ok (cid, db1) ∧
      db1.documents = db.documents ∧ db1.nextDocId = db.nextDocId ∧
      write encode db c t md true =
        (.success
            ("Successfully wrote document " ++ toString db1.nextDocId ++
              " to collection " ++ c) db1.nextDocId,
          { db1 with
            documents :=
              db1.documents ++ [⟨db1.nextDocId, cid, t, storedMd md, encode t⟩],
            nextDocId := db1.nextDocId + 1 }) := by
  rcases hl : lookupCollection db c with _ | cid
  · exact ⟨_, _, getOrCreate_fresh hl, rfl, rfl, by simp [write, getOrCreate_fresh hl]⟩
  · exact ⟨cid, db, getOrCreate_existing hl, rfl, rfl, by simp [write, getOrCreate_existing hl]⟩

/-! ## Concrete instances used as counterexamples and witnesses -/

/-- A one-dimensional encoder sending every text to the unit vector. -/
def encOne : String → List ℚ := fun _ => [1]

/-- An encoder sending the text z to the zero vector and everything else to
the unit vector (the encoder is an opaque external collaborator, so a
zero-norm encoding is admissible behaviour). -/
def encZ : String → List ℚ := fun t => if t == "z" then [0] else [1]

/-- Store holding one collection c with two identical documents, ids 1 then
2 in insertion order (reachable by two writes, see `C2_counterexample`). -/
def dbTwo : DB := ⟨[⟨1, "c"⟩], [⟨1, 1, "a", none, [1]⟩, ⟨2, 1, "a", none, [1]⟩], 2, 3⟩

/-- Store holding one collection c with a single zero-norm document. -/
def dbZ1 : DB := ⟨[⟨1, "c"⟩], [⟨1, 1, "z", none, [0]⟩], 2, 2⟩

/-- Store holding just the collection row newcol. -/
def dbNewcol : DB := ⟨[⟨1, "newcol"⟩], [], 2, 1⟩

/-! ## Claim C1 -/

/-- Claim C1 counterexample: a stored document whose embedding has zero
norm.  The store is reachable by one write; the query succeeds, and the
returned similarity is the NaN produced by the unguarded 0/0 division at
source lines 195-197 (modelled `none`) — not the 0.0 the claim promises. -/
theorem C1_counterexample :
    dbZ1 = (write encZ emptyDB "c" "z" none true).2 ∧
    normSq (encZ "z") = 0 ∧
    (query encZ dbZ1 "c" "z" 5).1 = QueryResult.success [⟨1, "z", none, none⟩] := by
  refine ⟨rfl, by norm_num [encZ, normSq, dotQ], ?_⟩
  norm_num [query, lookupCollection, dbZ1, encZ, simScore, normSq, dotQ, argsortAsc,
    keyLe, simLe, simLt, simEqv, Score.le, pySliceTo, toResultDoc, dummyRow,
    List.range_succ, storedMd]

/-- Claim C1 (amended): the division at source lines 195-197 is not guarded.
When either norm is zero the similarity comes out as the undefined float NaN
(`none`), not 0.0; no fault is raised — once the collection resolves, the
query still returns a success envelope containing the document. -/
theorem C1_unguarded_division :
    (∀ q v : List ℚ, normSq q * normSq v = 0 → simScore q v = none) ∧
    (∀ (encode : String → List ℚ) (db : DB) (c qt : String) (n : Int) (cid : Nat),
      lookupCollection db c = some cid →
      ∃ rs, (query encode db c qt n).1 = QueryResult.success rs) := by
  constructor
  · intro q v h
    simp [simScore, h]
  · intro encode db c qt n cid h
    cases hq : (query encode db c qt n).1 with
    | success rs => exact ⟨rs, rfl⟩
    | error m =>
      simp only [query, h] at hq
      exact QueryResult.noConfusion hq

/-- Witness for `C1_unguarded_division` at concrete inputs. -/
theorem C1_unguarded_division_witness :
    simScore [(0 : ℚ)] [(1 : ℚ)] = none ∧
    ∃ rs, (query encZ dbZ1 "c" "z" 5).1 = QueryResult.success rs :=
  ⟨C1_unguarded_division.1 [0] [1] (by norm_num [normSq, dotQ]),
   C1_unguarded_division.2 encZ dbZ1 "c" "z" 5 1 rfl⟩

/-! ## Claim C4 -/

/-- Claim C4 counterexample: with both the collection name and the text
empty, write returns a success envelope, creates the collection and appends
the document row — there is no ValidationError path in the source. -/
theorem C4_counterexample :
    (∃ m, (write encOne emptyDB "" "" none true).1 = WriteResult.success m 1) ∧
    (write encOne emptyDB "" "" none true).2 =
      ⟨[⟨1, ""⟩], [⟨1, 1, "", none, [1]⟩], 2, 2⟩ :=
  ⟨⟨_, rfl⟩, rfl⟩

/-- Claim C4 (amended): `VectorDB.write` performs no emptiness validation:
a call with an empty collection name or empty text still encodes, resolves
or creates the collection, appends a document row and returns success. -/
theorem C4_no_validation (encode : String → List ℚ) (db : DB) (c t : String)
    (md : Option Md) (_h : c = "" ∨ t = "") :
    ∃ m i, (write encode db c t md true).1 = WriteResult.success m i ∧
      (write encode db c t md true).2.documents.length =
        db.documents.length + 1 := by
  obtain ⟨cid, db1, hg, hdocs, hnext, hw⟩ := write_ok encode db c t md
  refine ⟨_, _, by rw [hw], ?_⟩
  rw [hw]
  simp [hdocs]

/-- Witness for `C4_no_validation`: both strings empty. -/
theorem C4_no_validation_witness :
    ∃ m i, (write encOne emptyDB "" "" none true).1 = WriteResult.success m i ∧
      (write encOne emptyDB "" "" none true).2.documents.length =
        emptyDB.documents.length + 1 :=
  C4_no_validation encOne emptyDB "" "" none (Or.inl rfl)

/-! ## Claim C5 -/

/-- Claim C5: querying a collection name absent from the registry yields the
not-found error envelope (source lines 171-179), never a success envelope,
and leaves the store unchanged. -/
theorem C5_unknown_collection (encode : String → List ℚ) (db : DB)
    (c q : String) (n : Int) (h : lookupCollection db c = none) :
    query encode db c q n = (.error ("Collection " ++ c ++ " not found"), db) := by
  simp [query, h]

/-- Witness for `C5_unknown_collection`. -/
theorem C5_unknown_collection_witness :
    query encOne emptyDB "missingcol" "x" 5 =
      (.error ("Collection " ++ "missingcol" ++ " not found"), emptyDB) :=
  C5_unknown_collection encOne emptyDB "missingcol" "x" 5 rfl

/-! ## Claim C8 -/

/-- Claim C8: write is not atomic across collection creation and document
insertion.  When the document insert fails after `_get_or_create_collection`
created (and committed) a new collection row, write returns an error
envelope while the fresh, empty collection row stays in the store and the
documents table is unchanged. -/
theorem C8_nonatomic_write (encode : String → List ℚ) (db : DB)
    (c t : String) (md : Option Md) (h : lookupCollection db c = none) :
    write encode db c t md false =
      (.error "Error writing to database: document insert failed",
        { db with
          collections := db.collections ++ [⟨db.nextCollectionId, c⟩],
          nextCollectionId := db.nextCollectionId + 1 }) := by
  simp [write, getOrCreate_fresh h]

/-- Witness for `C8_nonatomic_write`. -/
theorem C8_nonatomic_write_witness :
    write encOne emptyDB "c1" "hello" none false =
      (.error "Error writing to database: document insert failed",
        { emptyDB with
          collections := emptyDB.collections ++ [⟨emptyDB.nextCollectionId, "c1"⟩],
          nextCollectionId := emptyDB.nextCollectionId + 1 }) :=
  C8_nonatomic_write encOne emptyDB "c1" "hello" none rfl

/-! ## Claim C9 -/

/-- Claim C9 counterexample: the canonical racing interleaving — both
callers observe not-found on the fresh name, then both insert.  The second
insert fails on the UNIQUE constraint of `collections.name`, so two rows
with the same name are never produced; exactly one row exists afterwards. -/
theorem C9_counterexample :
    lookupCollection emptyDB "newcol" = none ∧
    lookupCollection emptyDB "newcol" = none ∧
    insertCollection emptyDB "newcol" = .ok (1, dbNewcol) ∧
    insertCollection dbNewcol "newcol" =
      .error "UNIQUE constraint failed: collections.name" ∧
    (dbNewcol.collections.filter (fun r => r.name == "newcol")).length = 1 :=
  ⟨rfl, rfl, rfl, rfl, rfl⟩

/-- Claim C9 (amended): the lookup-then-insert in
`_get_or_create_collection` is indeed check-then-act with no atomicity, but
the schema declares `name TEXT UNIQUE`, so when two concurrent callers both
observe not-found and both insert, the second insert raises a constraint
error (surfaced as an error envelope by the caller) instead of creating a
duplicate: exactly one row with the name exists, preserving the uniqueness
invariant. -/
theorem C9_unique_constraint (db : DB) (c : String)
    (h : lookupCollection db c = none) :
    insertCollection db c =
      .ok (db.nextCollectionId,
        { db with
          collections := db.collections ++ [⟨db.nextCollectionId, c⟩],
          nextCollectionId := db.nextCollectionId + 1 }) ∧
    insertCollection
        { db with
          collections := db.collections ++ [⟨db.nextCollectionId, c⟩],
          nextCollectionId := db.nextCollectionId + 1 } c =
      .error "UNIQUE constraint failed: collections.name" ∧
    (((db.collections ++ [(⟨db.nextCollectionId, c⟩ : Collection)]).filter
        (fun r => r.name == c))).length = 1 := by
  have hany := lookup_none_any_false h
  refine ⟨by simp [insertCollection, hany], ?_, ?_⟩
  · simp [insertCollection, hany]
  · rw [List.filter_append]
    have hnil : db.collections.filter (fun r => r.name == c) = [] := by
      rw [List.filter_eq_nil_iff]
      intro a ha
      exact List.any_eq_false.mp hany a ha
    simp [hnil]

/-- Witness for `C9_unique_constraint`. -/
theorem C9_unique_constraint_witness :
    insertCollection emptyDB "newcol" =
      .ok (emptyDB.nextCollectionId,
        { emptyDB with
          collections := emptyDB.collections ++ [⟨emptyDB.nextCollectionId, "newcol"⟩],
          nextCollectionId := emptyDB.nextCollectionId + 1 }) ∧
    insertCollection
        { emptyDB with
          collections := emptyDB.collections ++ [⟨emptyDB.nextCollectionId, "newcol"⟩],
          nextCollectionId := emptyDB.nextCollectionId + 1 } "newcol" =
      .error "UNIQUE constraint failed: collections.name" ∧
    (((emptyDB.collections ++ [(⟨emptyDB.nextCollectionId, "newcol"⟩ : Collection)]).filter
        (fun r => r.name == "newcol"))).length = 1 :=
  C9_unique_constraint emptyDB "newcol" rfl

/-! ## Writing to a fresh collection and querying it back -/

/-- `find?` form of a failed name lookup. -/
theorem find?_none_of_lookup_none {db : DB} {c : String}
    (h : lookupCollection db c = none) :
    db.collections.find? (fun r => r.name == c) = none := by
  unfold lookupCollection at h
  cases hf : db.collections.find? (fun r => r.name == c) with
  | none => rfl
  | some r => rw [hf] at h; simp at h

/-- Full description of a write that succeeds against a fresh name. -/
theorem write_fresh_eq (encode : String → List ℚ) (db : DB) (c t : String)
    (md : Option Md) (h : lookupCollection db c = none) :
    write encode db c t md true =
      (.success
          ("Successfully wrote document " ++ toString db.nextDocId ++
            " to collection " ++ c) db.nextDocId,
        ⟨db.collections ++ [⟨db.nextCollectionId, c⟩],
         db.documents ++
           [⟨db.nextDocId, db.nextCollectionId, t, storedMd md, encode t⟩],
         db.nextCollectionId + 1, db.nextDocId + 1⟩) := by
  simp [write, getOrCreate_fresh h]

/-- Writing a document to a fresh collection and querying that collection
with the same text (and any positive result bound) returns exactly that
document, with its stored metadata and the self-similarity score. -/
theorem fresh_write_query (encode : String → List ℚ) (db : DB) (c t : String)
    (md : Option Md) (n : Int)
    (h1 : lookupCollection db c = none)
    (h2 : ∀ d ∈ db.documents, d.collection_id ≠ db.nextCollectionId)
    (hn : 1 ≤ n) :
    (query encode (write encode db c t md true).2 c t n).1 =
      QueryResult.success
        [⟨db.nextDocId, t, storedMd md, simScore (encode t) (encode t)⟩] := by
  have hfind := find?_none_of_lookup_none h1
  rw [write_fresh_eq encode db c t md h1]
  have hfilter :
      (db.documents ++
          [(⟨db.nextDocId, db.nextCollectionId, t, storedMd md, encode t⟩ :
            DocumentRow)]).filter
        (fun d => d.collection_id == db.nextCollectionId) =
      [⟨db.nextDocId, db.nextCollectionId, t, storedMd md, encode t⟩] := by
    rw [List.filter_append, List.filter_eq_nil_iff.mpr]
    · simp [List.filter]
    · intro a ha
      simp only [beq_iff_eq]
      exact h2 a ha
  have htake : pySliceTo [0] n = [0] := by
    unfold pySliceTo
    rw [if_pos (by omega : (0:ℤ) ≤ n)]
    apply List.take_of_length_le
    simp only [List.length_cons, List.length_nil]
    omega
  have hr1 : List.range 1 = [0] := rfl
  simp [query, lookupCollection, List.find?_append, hfind, List.find?,
    hfilter, argsortAsc, hr1, htake, toResultDoc]

/-! ## Claim C6 -/

/-- Claim C6: writing a text with nonzero-norm encoding to a fresh
collection and querying that collection with the same text returns that
document as the (only, hence top) result, and its cosine similarity — the
real number `num / sqrt denSq` encoded by the stored score — exceeds 0.999
(it is exactly 1).  The encoder is a function, hence deterministic. -/
theorem C6_round_trip (encode : String → List ℚ) (db : DB) (c T : String)
    (md : Option Md) (n : Int)
    (h1 : lookupCollection db c = none)
    (h2 : ∀ d ∈ db.documents, d.collection_id ≠ db.nextCollectionId)
    (h3 : normSq (encode T) ≠ 0) (hn : 1 ≤ n) :
    ∃ s : Score,
      (query encode (write encode db c T md true).2 c T n).1 =
        QueryResult.success [⟨db.nextDocId, T, storedMd md, some s⟩] ∧
      0.999 < (s.num : ℝ) / Real.sqrt (s.denSq : ℝ) := by
  refine ⟨⟨normSq (encode T), normSq (encode T) * normSq (encode T)⟩, ?_, ?_⟩
  · rw [fresh_write_query encode db c T md n h1 h2 hn]
    have hs : simScore (encode T) (encode T) =
        some ⟨normSq (encode T), normSq (encode T) * normSq (encode T)⟩ := by
      unfold simScore
      rw [if_neg (mul_ne_zero h3 h3)]
      rfl
    rw [hs]
  · have hpos : (0 : ℚ) < normSq (encode T) :=
      lt_of_le_of_ne (normSq_nonneg _) (Ne.symm h3)
    have hNR : (0 : ℝ) < ((normSq (encode T) : ℚ) : ℝ) := by exact_mod_cast hpos
    show (0.999 : ℝ) <
      ((normSq (encode T) : ℚ) : ℝ) /
        Real.sqrt (((normSq (encode T) * normSq (encode T) : ℚ)) : ℝ)
    have hcast : ((normSq (encode T) * normSq (encode T) : ℚ) : ℝ) =
        ((normSq (encode T) : ℚ) : ℝ) * ((normSq (encode T) : ℚ) : ℝ) := by
      push_cast
      ring
    rw [hcast, Real.sqrt_mul_self hNR.le, div_self (ne_of_gt hNR)]
    norm_num

/-- Witness for `C6_round_trip`. -/
theorem C6_round_trip_witness :
    ∃ s : Score,
      (query encOne (write encOne emptyDB "c1" "hello world" none true).2
          "c1" "hello world" 5).1 =
        QueryResult.success
          [⟨emptyDB.nextDocId, "hello world", storedMd none, some s⟩] ∧
      0.999 < (s.num : ℝ) / Real.sqrt (s.denSq : ℝ) :=
  C6_round_trip encOne emptyDB "c1" "hello world" none 5 rfl
    (by intro d hd; exact absurd hd (List.not_mem_nil d))
    (by norm_num [encOne, normSq, dotQ]) (by norm_num)

/-! ## Claim C7 -/

/-- Claim C7: a non-empty (truthy) metadata mapping survives the write and
is returned unchanged by a query that returns the document; the store and
load through `json.dumps` / `json.loads` is the identity on serializable
mappings. -/
theorem C7_metadata_round_trip (encode : String → List ℚ) (db : DB)
    (c T : String) (m : Md) (n : Int)
    (h1 : lookupCollection db c = none)
    (h2 : ∀ d ∈ db.documents, d.collection_id ≠ db.nextCollectionId)
    (hm : m ≠ []) (hn : 1 ≤ n) :
    (query encode (write encode db c T (some m) true).2 c T n).1 =
      QueryResult.success
        [⟨db.nextDocId, T, some m, simScore (encode T) (encode T)⟩] := by
  rw [fresh_write_query encode db c T (some m) n h1 h2 hn]
  have hsm : storedMd (some m) = some m := by
    cases m with
    | nil => exact absurd rfl hm
    | cons a as => rfl
  rw [hsm]

/-- Witness for `C7_metadata_round_trip`, with the mapping k maps to 1. -/
theorem C7_metadata_round_trip_witness :
    (query encOne
        (write encOne emptyDB "c" "a" (some [("k", JVal.jint 1)]) true).2
        "c" "a" 5).1 =
      QueryResult.success
        [⟨emptyDB.nextDocId, "a", some [("k", JVal.jint 1)],
          simScore (encOne "a") (encOne "a")⟩] :=
  C7_metadata_round_trip encOne emptyDB "c" "a" [("k", JVal.jint 1)] 5 rfl
    (by intro d hd; exact absurd hd (List.not_mem_nil d))
    (by simp) (by norm_num)

/-! ## Claim C10 -/

/-- Claim C10 (implicit behaviour): a falsy metadata argument — absent, or
the empty mapping — is stored as NULL by the truthiness test at source line
125, so the query returns the document with metadata null (`none`), not the
empty mapping. -/
theorem C10_falsy_metadata_null (encode : String → List ℚ) (db : DB)
    (c T : String) (md : Option Md) (n : Int)
    (h1 : lookupCollection db c = none)
    (h2 : ∀ d ∈ db.documents, d.collection_id ≠ db.nextCollectionId)
    (hmd : md = none ∨ md = some []) (hn : 1 ≤ n) :
    (query encode (write encode db c T md true).2 c T n).1 =
      QueryResult.success
        [⟨db.nextDocId, T, none, simScore (encode T) (encode T)⟩] := by
  rw [fresh_write_query encode db c T md n h1 h2 hn]
  have hsm : storedMd md = none := by
    rcases hmd with rfl | rfl
    · rfl
    · rfl
  rw [hsm]

/-- Witness for `C10_falsy_metadata_null`, with the empty mapping. -/
theorem C10_falsy_metadata_null_witness :
    (query encOne (write encOne emptyDB "c" "a" (some []) true).2 "c" "a" 5).1 =
      QueryResult.success
        [⟨emptyDB.nextDocId, "a", none, simScore (encOne "a") (encOne "a")⟩] :=
  C10_falsy_metadata_null encOne emptyDB "c" "a" (some []) 5 rfl
    (by intro d hd; exact absurd hd (List.not_mem_nil d))
    (Or.inr rfl) (by norm_num)

/-! ## Claims C2 and C3: counterexamples -/

/-- Claim C2 counterexample: two documents written in insertion order 1 then
2 with identical embeddings tie on similarity, and the query returns them in
REVERSE insertion order [2, 1].  On this two-element array numpy's introsort
runs entirely in its insertion-sort path, which keeps the tied pair in
ascending index order, so the model is exact here; the `[::-1]` reversal at
source line 208 then reverses the tied pair.  The store is reachable by the
two writes shown in the first conjunct. -/
theorem C2_counterexample :
    dbTwo = (write encOne (write encOne emptyDB "c" "a" none true).2
        "c" "a" none true).2 ∧
    (query encOne dbTwo "c" "a" 5).1 =
      QueryResult.success
        [⟨2, "a", none, some ⟨1, 1⟩⟩, ⟨1, "a", none, some ⟨1, 1⟩⟩] ∧
    simEqv (some ⟨1, 1⟩) (some ⟨1, 1⟩) = true := by
  refine ⟨rfl, ?_, ?_⟩
  · norm_num [query, lookupCollection, dbTwo, encOne, simScore, normSq, dotQ,
      argsortAsc, keyLe, simLe, simLt, simEqv, Score.le, pySliceTo,
      toResultDoc, dummyRow, List.range_succ, storedMd]
  · norm_num [simEqv, simLe, Score.le]

/-- Claim C3 counterexample: `topK = -1` is nonpositive, yet the query on a
two-document collection returns one result rather than the empty list —
the Python slice `[:-1]` drops only the last ranked element. -/
theorem C3_counterexample :
    ((-1 : Int) ≤ 0) ∧
    (query encOne dbTwo "c" "a" (-1)).1 =
      QueryResult.success [⟨2, "a", none, some ⟨1, 1⟩⟩] := by
  refine ⟨by norm_num, ?_⟩
  norm_num [query, lookupCollection, dbTwo, encOne, simScore, normSq, dotQ,
    argsortAsc, keyLe, simLe, simLt, simEqv, Score.le, pySliceTo,
    toResultDoc, dummyRow, List.range_succ, storedMd]

/-! ## Exact meaning of the score comparisons

The Boolean comparison `Score.le` is shown to decide exactly the real-number
comparison of the cosine values it encodes, so ordering by these comparisons
is ordering by the float similarity the source computes. -/

theorem Score.le_iff_real {s t : Score} (hs : 0 < s.denSq) (ht : 0 < t.denSq) :
    Score.le s t = true ↔
      (s.num : ℝ) / Real.sqrt (s.denSq : ℝ) ≤ (t.num : ℝ) / Real.sqrt (t.denSq : ℝ) := by
  have hbR : (0 : ℝ) < (s.denSq : ℝ) := by exact_mod_cast hs
  have hdR : (0 : ℝ) < (t.denSq : ℝ) := by exact_mod_cast ht
  have hsb : (0 : ℝ) < Real.sqrt (s.denSq : ℝ) := Real.sqrt_pos.mpr hbR
  have hsd : (0 : ℝ) < Real.sqrt (t.denSq : ℝ) := Real.sqrt_pos.mpr hdR
  have hb2 : Real.sqrt (s.denSq : ℝ) * Real.sqrt (s.denSq : ℝ) = (s.denSq : ℝ) :=
    Real.mul_self_sqrt hbR.le
  have hd2 : Real.sqrt (t.denSq : ℝ) * Real.sqrt (t.denSq : ℝ) = (t.denSq : ℝ) :=
    Real.mul_self_sqrt hdR.le
  rw [div_le_div_iff₀ hsb hsd]
  unfold Score.le
  rcases le_or_lt s.num 0 with h1 | h1
  · have h1R : (s.num : ℝ) ≤ 0 := by exact_mod_cast h1
    rcases le_or_lt 0 t.num with h2 | h2
    · have h2R : (0 : ℝ) ≤ (t.num : ℝ) := by exact_mod_cast h2
      rw [if_pos h1, if_pos h2]
      have hgoal : (s.num : ℝ) * Real.sqrt (t.denSq : ℝ) ≤
          (t.num : ℝ) * Real.sqrt (s.denSq : ℝ) :=
        le_trans (mul_nonpos_of_nonpos_of_nonneg h1R hsd.le) (mul_nonneg h2R hsb.le)
      simp [hgoal]
    · have h2R : (t.num : ℝ) < 0 := by exact_mod_cast h2
      rw [if_pos h1, if_neg (not_le.mpr h2)]
      simp only [decide_eq_true_eq]
      have hcast : (t.num ^ 2 * s.denSq ≤ s.num ^ 2 * t.denSq) ↔
          ((t.num : ℝ) ^ 2 * (s.denSq : ℝ) ≤ (s.num : ℝ) ^ 2 * (t.denSq : ℝ)) := by
        exact_mod_cast Iff.rfl
      rw [hcast]
      have e1 : ((-(t.num : ℝ)) * Real.sqrt (s.denSq : ℝ)) *
          ((-(t.num : ℝ)) * Real.sqrt (s.denSq : ℝ)) = (t.num : ℝ) ^ 2 * (s.denSq : ℝ) := by
        linear_combination ((t.num : ℝ) ^ 2) * hb2
      have e2 : ((-(s.num : ℝ)) * Real.sqrt (t.denSq : ℝ)) *
          ((-(s.num : ℝ)) * Real.sqrt (t.denSq : ℝ)) = (s.num : ℝ) ^ 2 * (t.denSq : ℝ) := by
        linear_combination ((s.num : ℝ) ^ 2) * hd2
      have hx : (0 : ℝ) ≤ (-(t.num : ℝ)) * Real.sqrt (s.denSq : ℝ) :=
        mul_nonneg (by linarith) hsb.le
      have hy : (0 : ℝ) ≤ (-(s.num : ℝ)) * Real.sqrt (t.denSq : ℝ) :=
        mul_nonneg (by linarith) hsd.le
      have hiff := mul_self_le_mul_self_iff hx hy
      constructor
      · intro hsq
        have h3 : (-(t.num : ℝ)) * Real.sqrt (s.denSq : ℝ) ≤
            (-(s.num : ℝ)) * Real.sqrt (t.denSq : ℝ) := by
          rw [hiff, e1, e2]
          exact hsq
        linarith
      · intro hle
        have h3 : (-(t.num : ℝ)) * Real.sqrt (s.denSq : ℝ) ≤
            (-(s.num : ℝ)) * Real.sqrt (t.denSq : ℝ) := by linarith
        rw [hiff, e1, e2] at h3
        exact h3
  · have h1R : (0 : ℝ) < (s.num : ℝ) := by exact_mod_cast h1
    rcases le_or_lt t.num 0 with h2 | h2
    · have h2R : (t.num : ℝ) ≤ 0 := by exact_mod_cast h2
      rw [if_neg (not_le.mpr h1), if_pos h2]
      have hgoal : ¬((s.num : ℝ) * Real.sqrt (t.denSq : ℝ) ≤
          (t.num : ℝ) * Real.sqrt (s.denSq : ℝ)) :=
        not_le.mpr (lt_of_le_of_lt (mul_nonpos_of_nonpos_of_nonneg h2R hsb.le)
          (mul_pos h1R hsd))
      simp [hgoal]
    · have h2R : (0 : ℝ) < (t.num : ℝ) := by exact_mod_cast h2
      rw [if_neg (not_le.mpr h1), if_neg (not_le.mpr h2)]
      simp only [decide_eq_true_eq]
      have hcast : (s.num ^ 2 * t.denSq ≤ t.num ^ 2 * s.denSq) ↔
          ((s.num : ℝ) ^ 2 * (t.denSq : ℝ) ≤ (t.num : ℝ) ^ 2 * (s.denSq : ℝ)) := by
        exact_mod_cast Iff.rfl
      rw [hcast]
      have e1 : ((s.num : ℝ) * Real.sqrt (t.denSq : ℝ)) *
          ((s.num : ℝ) * Real.sqrt (t.denSq : ℝ)) = (s.num : ℝ) ^ 2 * (t.denSq : ℝ) := by
        linear_combination ((s.num : ℝ) ^ 2) * hd2
      have e2 : ((t.num : ℝ) * Real.sqrt (s.denSq : ℝ)) *
          ((t.num : ℝ) * Real.sqrt (s.denSq : ℝ)) = (t.num : ℝ) ^ 2 * (s.denSq : ℝ) := by
        linear_combination ((t.num : ℝ) ^ 2) * hb2
      have hx : (0 : ℝ) ≤ (s.num : ℝ) * Real.sqrt (t.denSq : ℝ) :=
        mul_nonneg h1R.le hsd.le
      have hy : (0 : ℝ) ≤ (t.num : ℝ) * Real.sqrt (s.denSq : ℝ) :=
        mul_nonneg h2R.le hsb.le
      have hiff := mul_self_le_mul_self_iff hx hy
      constructor
      · intro hsq
        rw [hiff, e1, e2]
        exact hsq
      · intro hle
        rw [hiff, e1, e2] at hle
        exact hle

theorem scoreLe_total (s t : Score) : Score.le s t = true ∨ Score.le t s = true := by
  unfold Score.le
  rcases le_or_lt s.num 0 with h1 | h1
  · rcases le_or_lt 0 t.num with h2 | h2
    · left
      rw [if_pos h1, if_pos h2]
    · rw [if_pos h1, if_neg (not_le.mpr h2)]
      rcases le_total (t.num ^ 2 * s.denSq) (s.num ^ 2 * t.denSq) with h3 | h3
      · left
        simpa using h3
      · right
        rw [if_pos h2.le]
        rcases le_or_lt 0 s.num with h4 | h4
        · rw [if_pos h4]
        · rw [if_neg (not_le.mpr h4)]
          simpa using h3
  · rcases le_or_lt t.num 0 with h2 | h2
    · right
      rw [if_pos h2, if_pos h1.le]
    · rw [if_neg (not_le.mpr h1), if_neg (not_le.mpr h2)]
      rcases le_total (s.num ^ 2 * t.denSq) (t.num ^ 2 * s.denSq) with h3 | h3
      · left
        simpa using h3
      · right
        rw [if_neg (not_le.mpr h2), if_neg (not_le.mpr h1)]
        simpa using h3

theorem scoreLe_trans {s t u : Score} (hs : 0 < s.denSq) (ht : 0 < t.denSq)
    (hu : 0 < u.denSq) (h1 : Score.le s t = true) (h2 : Score.le t u = true) :
    Score.le s u = true := by
  rw [Score.le_iff_real hs ht] at h1
  rw [Score.le_iff_real ht hu] at h2
  rw [Score.le_iff_real hs hu]
  exact le_trans h1 h2

/-- Positivity of the squared denominator, an invariant of every score
`simScore` produces (`none` carries no denominator). -/
def posDen : Option Score → Prop
  | none => True
  | some s => 0 < s.denSq

theorem simScore_posDen (q v : List ℚ) : posDen (simScore q v) := by
  by_cases h : normSq q * normSq v = 0
  · simp [simScore, h, posDen]
  · simp only [simScore, if_neg h]
    show 0 < normSq q * normSq v
    exact lt_of_le_of_ne (mul_nonneg (normSq_nonneg q) (normSq_nonneg v)) (Ne.symm h)

theorem simLe_total (x y : Option Score) : simLe x y = true ∨ simLe y x = true := by
  cases x with
  | none => cases y with
    | none => left; rfl
    | some t => right; rfl
  | some s => cases y with
    | none => left; rfl
    | some t => exact scoreLe_total s t

theorem simLe_trans {x y z : Option Score} (hx : posDen x) (hy : posDen y)
    (hz : posDen z) (h1 : simLe x y = true) (h2 : simLe y z = true) :
    simLe x z = true := by
  cases z with
  | none => cases x with
    | none => rfl
    | some s => rfl
  | some u =>
    cases y with
    | none => exact absurd h2 (by simp [simLe])
    | some t =>
      cases x with
      | none => exact absurd h1 (by simp [simLe])
      | some s => exact scoreLe_trans hx hy hz h1 h2

theorem simEqv_comm (x y : Option Score) : simEqv x y = simEqv y x := by
  unfold simEqv
  exact Bool.and_comm _ _

theorem simLt_iff_not_le (x y : Option Score) : simLt x y = true ↔ ¬ simLe y x = true := by
  unfold simLt
  cases simLe y x with
  | false => simp
  | true => simp

theorem simEqv_iff_le_both (x y : Option Score) :
    simEqv x y = true ↔ (simLe x y = true ∧ simLe y x = true) := by
  unfold simEqv
  rw [Bool.and_eq_true]

theorem keyLe_total (sims : List (Option Score)) (i j : Nat) :
    keyLe sims i j = true ∨ keyLe sims j i = true := by
  unfold keyLe
  set x := sims.getD i none with hx
  set y := sims.getD j none with hy
  rcases Nat.le_total i j with hij | hij <;>
    cases h1 : simLe x y <;> cases h2 : simLe y x <;>
      simp [simLt, simEqv, h1, h2, hij]

theorem keyLe_trans (sims : List (Option Score))
    (hpos : ∀ k, posDen (sims.getD k none)) (i j k : Nat)
    (hij : keyLe sims i j = true) (hjk : keyLe sims j k = true) :
    keyLe sims i k = true := by
  have hi := hpos i
  have hj := hpos j
  have hk := hpos k
  unfold keyLe at hij hjk ⊢
  rw [Bool.or_eq_true, Bool.and_eq_true, decide_eq_true_eq] at hij hjk ⊢
  rcases hij with hij | ⟨hije, hijle⟩ <;> rcases hjk with hjk | ⟨hjke, hjkle⟩
  · left
    rw [simLt_iff_not_le] at hij hjk ⊢
    intro hki
    rcases simLe_total (sims.getD j none) (sims.getD k none) with hb | hb
    · exact hij (simLe_trans hj hk hi hb hki)
    · exact hjk hb
  · left
    rw [simLt_iff_not_le] at hij ⊢
    rw [simEqv_iff_le_both] at hjke
    intro hki
    exact hij (simLe_trans hj hk hi hjke.1 hki)
  · left
    rw [simLt_iff_not_le] at hjk ⊢
    rw [simEqv_iff_le_both] at hije
    intro hki
    exact hjk (simLe_trans hk hi hj hki hije.1)
  · right
    rw [simEqv_iff_le_both] at hije hjke ⊢
    exact ⟨⟨simLe_trans hi hj hk hije.1 hjke.1,
      simLe_trans hk hj hi hjke.2 hije.2⟩, le_trans hijle hjkle⟩

theorem simScore_nil (qv : List ℚ) : simScore qv [] = none := by
  simp [simScore, normSq, dotQ]

theorem sims_getD_posDen (qv : List ℚ) (docs : List DocumentRow) (i : Nat) :
    posDen ((docs.map (fun d => simScore qv d.embedding)).getD i none) := by
  rw [List.getD_eq_getElem?_getD]
  cases hg : (docs.map (fun d => simScore qv d.embedding))[i]? with
  | none => exact trivial
  | some x =>
    obtain ⟨d, _, rfl⟩ := List.mem_map.mp (List.getElem?_mem hg)
    exact simScore_posDen qv d.embedding

theorem getD_map_sims (qv : List ℚ) (docs : List DocumentRow) (i : Nat) :
    (docs.map (fun d => simScore qv d.embedding)).getD i none =
      simScore qv (docs.getD i dummyRow).embedding := by
  rw [List.getD_eq_getElem?_getD, List.getD_eq_getElem?_getD, List.getElem?_map]
  cases hg : docs[i]? with
  | none => simp [simScore_nil, dummyRow]
  | some d => simp

theorem pySliceTo_sublist (l : List α) (n : Int) : List.Sublist (pySliceTo l n) l := by
  unfold pySliceTo
  split
  · exact List.take_sublist _ _
  · exact List.take_sublist _ _

theorem pySliceTo_all {l : List α} {n : Int} (h : (l.length : Int) ≤ n) :
    pySliceTo l n = l := by
  unfold pySliceTo
  rw [if_pos (le_trans (Int.natCast_nonneg _) h)]
  apply List.take_of_length_le
  omega

theorem query_success_eq (encode : String → List ℚ) (db : DB) (c q : String)
    (n : Int) (cid : Nat) (h : lookupCollection db c = some cid) :
    query encode db c q n =
      (QueryResult.success
        ((pySliceTo
            (argsortAsc ((db.documents.filter
                (fun d => d.collection_id == cid)).map
              (fun d => simScore (encode q) d.embedding))).reverse n).map
          (fun i => toResultDoc (encode q)
            ((db.documents.filter (fun d => d.collection_id == cid)).getD i
              dummyRow))), db) := by
  simp only [query, h]

theorem map_getD_range (qv : List ℚ) (docs : List DocumentRow) :
    (List.range docs.length).map
        (fun i => toResultDoc qv (docs.getD i dummyRow)) =
      docs.map (toResultDoc qv) := by
  apply List.ext_getElem
  · simp
  · intro i h1 h2
    have hi : i < docs.length := by simpa using h2
    rw [List.getElem_map, List.getElem_map, List.getElem_range]
    congr 1
    rw [List.getD_eq_getElem?_getD, List.getElem?_eq_getElem hi, Option.getD_some]

/-! ## Claim C2 -/

/-- A ranking comparison that holds also implies the weak score comparison:
the index tie-break only refines `simLe`, never contradicts it. -/
theorem keyLe_le (sims : List (Option Score)) (i j : Nat)
    (h : keyLe sims i j = true) :
    simLe (sims.getD i none) (sims.getD j none) = true := by
  unfold keyLe at h
  rw [Bool.or_eq_true, Bool.and_eq_true] at h
  rcases h with h | ⟨h, _⟩
  · rw [simLt_iff_not_le] at h
    rcases simLe_total (sims.getD i none) (sims.getD j none) with h2 | h2
    · exact h2
    · exact absurd h2 h
  · rw [simEqv_iff_le_both] at h
    exact h.1

/-- Claim C2 (amended): for every query over an existing collection the
result list is sorted DESCENDING by similarity score — every later entry
compares less-or-equal to every earlier one under the score order (NaN
similarities, `none`, sort above all reals, as numpy places them).  The
descending conclusion is invariant under the order within tied blocks, so it
holds however the unstable default `np.argsort` quicksort permutes equal
scores.  The claim's tie-break part is false and is replaced by NO
guarantee: equal-score documents come back in no specified order — on
numpy's small-array insertion-sort path the `[::-1]` reversal yields exactly
REVERSE insertion order, as `C2_counterexample` shows on two documents,
while larger tied blocks may be permuted arbitrarily by quicksort
partitioning. -/
theorem C2_descending_by_score (encode : String → List ℚ) (db : DB)
    (c q : String) (n : Int) (cid : Nat)
    (h : lookupCollection db c = some cid) :
    ∃ rs, (query encode db c q n).1 = QueryResult.success rs ∧
      rs.Pairwise (fun a b => simLe b.similarity a.similarity = true) := by
  have hq := query_success_eq encode db c q n cid h
  set qv := encode q with hqv
  set docs := db.documents.filter (fun d => d.collection_id == cid) with hdocs
  set sims := docs.map (fun d => simScore qv d.embedding) with hsims
  refine ⟨_, by rw [hq], ?_⟩
  have hpos : ∀ i, posDen (sims.getD i none) := by
    intro i
    rw [hsims]
    exact sims_getD_posDen qv docs i
  haveI : IsTotal Nat (fun i j : Nat => keyLe sims i j = true) := ⟨keyLe_total sims⟩
  haveI : IsTrans Nat (fun i j : Nat => keyLe sims i j = true) :=
    ⟨keyLe_trans sims hpos⟩
  have hsorted : (argsortAsc sims).Pairwise (fun i j => keyLe sims i j = true) := by
    unfold argsortAsc
    exact List.sorted_insertionSort _ _
  have hrev : (argsortAsc sims).reverse.Pairwise
      (fun i j => keyLe sims j i = true) :=
    List.pairwise_reverse.mpr hsorted
  have hslice : (pySliceTo (argsortAsc sims).reverse n).Pairwise
      (fun i j => keyLe sims j i = true) :=
    List.Pairwise.sublist (pySliceTo_sublist _ _) hrev
  rw [List.pairwise_map]
  refine hslice.imp ?_
  intro i j hk
  have hle := keyLe_le sims j i hk
  rw [hsims, getD_map_sims qv docs j, getD_map_sims qv docs i] at hle
  exact hle

/-- Witness for `C2_descending_by_score` on the two-document store. -/
theorem C2_descending_by_score_witness :
    ∃ rs, (query encOne dbTwo "c" "a" 5).1 = QueryResult.success rs ∧
      rs.Pairwise (fun a b => simLe b.similarity a.similarity = true) :=
  C2_descending_by_score encOne dbTwo "c" "a" 5 1 rfl

/-! ## Claim C3 -/

/-- Claim C3 (amended): truncation to `topK` behaves as the Python slice
`[:topK]`: `topK = 0` returns the empty success list; `topK` at least the
number of matching documents returns all of them (a permutation of the
collection contents, in ranked order); but a NEGATIVE `topK` does not
return the empty list — it drops the last `|topK|` ranked results, keeping
`max(count + topK, 0)` of them. -/
theorem C3_truncation (encode : String → List ℚ) (db : DB) (c q : String)
    (n : Int) (cid : Nat) (h : lookupCollection db c = some cid) :
    (n = 0 → (query encode db c q n).1 = QueryResult.success []) ∧
    (((db.documents.filter (fun d => d.collection_id == cid)).length : Int) ≤ n →
      ∃ rs, (query encode db c q n).1 = QueryResult.success rs ∧
        rs.Perm ((db.documents.filter (fun d => d.collection_id == cid)).map
          (toResultDoc (encode q))) ∧
        rs.length = (db.documents.filter (fun d => d.collection_id == cid)).length) ∧
    (n < 0 →
      ∃ rs, (query encode db c q n).1 = QueryResult.success rs ∧
        rs.length =
          (((db.documents.filter (fun d => d.collection_id == cid)).length : Int) +
            n).toNat) := by
  have hq := query_success_eq encode db c q n cid h
  set qv := encode q with hqv
  set docs := db.documents.filter (fun d => d.collection_id == cid) with hdocs
  set sims := docs.map (fun d => simScore qv d.embedding) with hsims
  have hlen : (argsortAsc sims).reverse.length = docs.length := by
    rw [List.length_reverse]
    unfold argsortAsc
    rw [(List.perm_insertionSort _ _).length_eq, List.length_range, hsims,
      List.length_map]
  refine ⟨?_, ?_, ?_⟩
  · intro hn0
    subst hn0
    simp [hq, pySliceTo]
  · intro hge
    have hslice : pySliceTo (argsortAsc sims).reverse n =
        (argsortAsc sims).reverse :=
      pySliceTo_all (by rw [hlen]; exact hge)
    refine ⟨_, by rw [hq], ?_, ?_⟩
    · rw [hslice]
      have p1 : ((argsortAsc sims).reverse).Perm (argsortAsc sims) :=
        List.reverse_perm _
      have p2 : (argsortAsc sims).Perm (List.range sims.length) := by
        unfold argsortAsc
        exact List.perm_insertionSort _ _
      have p3 : List.range sims.length = List.range docs.length := by
        rw [hsims, List.length_map]
      have hp := p1.trans (p3 ▸ p2)
      have hm := hp.map (fun i => toResultDoc qv (docs.getD i dummyRow))
      rw [map_getD_range qv docs] at hm
      exact hm
    · rw [List.length_map, hslice, hlen]
  · intro hneg
    refine ⟨_, by rw [hq], ?_⟩
    rw [List.length_map]
    unfold pySliceTo
    rw [if_neg (not_le.mpr hneg), List.length_take, hlen]
    omega

/-- Witness for `C3_truncation`: the three regimes at topK of 0, 5 and -1
on the two-document store. -/
theorem C3_truncation_witness :
    (query encOne dbTwo "c" "a" 0).1 = QueryResult.success [] ∧
    (∃ rs, (query encOne dbTwo "c" "a" 5).1 = QueryResult.success rs ∧
      rs.Perm ((dbTwo.documents.filter (fun d => d.collection_id == 1)).map
        (toResultDoc (encOne "a"))) ∧
      rs.length =
        (dbTwo.documents.filter (fun d => d.collection_id == 1)).length) ∧
    (∃ rs, (query encOne dbTwo "c" "a" (-1)).1 = QueryResult.success rs ∧
      rs.length =
        (((dbTwo.documents.filter
            (fun d => d.collection_id == 1)).length : Int) + (-1)).toNat) :=
  ⟨(C3_truncation encOne dbTwo "c" "a" 0 1 rfl).1 rfl,
   (C3_truncation encOne dbTwo "c" "a" 5 1 rfl).2.1
     (by norm_num [dbTwo, List.filter]),
   (C3_truncation encOne dbTwo "c" "a" (-1) 1 rfl).2.2 (by norm_num)⟩
